import Mathlib

/-!
Shallow embedding of the ssd_cell_checking repository: credential derivation
(credentials_generator.py), the per-host action pipeline and bounded-pool
fan-in (main.py), the scan pipeline and CSV export (scan_utils.py), the ping
probe (ping_utils.py), and the presentation sort (pandas sort_values on two
columns, which uses a stable lexicographic sort).

Network collaborators (subprocess ping, paramiko SSH) are modelled as oracle
behaviours: each call either returns a value or raises, represented by an
Except value supplied as a parameter. Side effects relevant to the claims
(session open/close, command execution, deploy invocation) are recorded in an
explicit trace.
-/

namespace SSD

/-! ### credentials_generator.py -/

/-- Left-pad a string with zero characters to the given width
(the digit part of Python's 03d format). -/
def leftPadZeros (s : String) (w : Nat) : String :=
  String.mk (List.replicate (w - s.length) '0') ++ s

/-- Python fString n:03d: sign, then digits zero-padded so the whole field
has width at least 3. -/
def pad3 (n : Int) : String :=
  if n < 0 then "-" ++ leftPadZeros (toString (-n)) 2
  else leftPadZeros (toString n) 3

/-- One hostname/username/password triple. -/
abbrev Cred := String × String × String

/-- generate_credentials from credentials_generator.py, on an input already
coerced to an integer. Returns the list of derived credential tuples. -/
def generate_credentials (n : Int) : List Cred :=
  let xxx3 := pad3 n
  let username := "uss01sth" ++ xxx3 ++ "ts01"
  let password := "sth@TS" ++ xxx3
  if 1 ≤ n ∧ n ≤ 9 then
    [("css01sth" ++ xxx3 ++ "ts01", username, password)]
  else if 10 ≤ n ∧ n ≤ 99 then
    [("css01sth" ++ xxx3 ++ "ts01", username, password),
     ("css01sth" ++ toString n ++ "ts01", username, password)]
  else
    [("css01sth" ++ toString n ++ "ts01", username, password)]

/-- Strip leading and trailing whitespace from a character list (Python
str.strip). -/
def stripChars (l : List Char) : List Char :=
  ((l.dropWhile Char.isWhitespace).reverse.dropWhile Char.isWhitespace).reverse

/-- Python str.strip on a string. -/
def pyStrip (s : String) : String :=
  String.mk (stripChars s.toList)

/-- Split a character list on non-overlapping occurrences of two ampersand
characters, scanning left to right (Python str.split with that separator). -/
def splitOnAmpAmp : List Char → List (List Char)
  | [] => [[]]
  | '&' :: '&' :: rest => [] :: splitOnAmpAmp rest
  | c :: rest =>
    match splitOnAmpAmp rest with
    | [] => [[c]]
    | h :: t => (c :: h) :: t

/-- Python str.split on the two-ampersand conjunction delimiter. -/
def pySplitAmpAmp (s : String) : List String :=
  (splitOnAmpAmp s.toList).map String.mk

/-- Value of a nonempty all-digit character list, none otherwise. -/
def digitsVal (l : List Char) : Option Nat :=
  if l ≠ [] ∧ l.all Char.isDigit then
    some (l.foldl (fun a c => a * 10 + (c.toNat - '0'.toNat)) 0)
  else none

/-- Model of Python int() applied to a string: optional surrounding
whitespace, optional sign, then a nonempty digit run. -/
def pyInt (s : String) : Option Int :=
  match stripChars s.toList with
  | [] => none
  | c :: rest =>
    if c = '-' then (digitsVal rest).map (fun v => -(v : Int))
    else if c = '+' then (digitsVal rest).map (fun v => (v : Int))
    else (digitsVal (c :: rest)).map (fun v => (v : Int))

/-- generate_credentials on a string input: the int(num) coercion inside the
try block, raising ValueError when the coercion fails. -/
def generate_credentials_str (s : String) : Except String (List Cred) :=
  match pyInt s with
  | none => .error "Input must be an integer or string representing an integer."
  | some n => .ok (generate_credentials n)

/-! ### the batch-building loop of on_execute / on_scan (main.py)

The call sites read
  hostname, username, password = generate_credentials(n)
which is Python tuple unpacking of the returned list into three targets:
it succeeds only when the list has exactly three elements. -/

/-- Python unpacking of a list into three targets: a, b, c = l. -/
def unpack3 {α : Type} : List α → Except String (α × α × α)
  | [a, b, c] => .ok (a, b, c)
  | _ => .error "ValueError: unpacking requires exactly 3 values"

/-- Python range start..stop inclusive, as used by range(start, end + 1). -/
def pyRangeIncl (start stop : Int) : List Int :=
  (List.range ((stop + 1 - start).toNat)).map (fun i => start + Int.ofNat i)

/-- The host_infos construction of on_execute / on_scan for the range input
mode: the start > end check, then per member the unpacking of the
generate_credentials result into three targets and the append of the
resulting record. On success the three bound values are whatever the
unpacking produced (each a credential tuple). -/
def buildHostInfosRange (start stop : Int) :
    Except String (List (Cred × Cred × Cred)) :=
  if start > stop then
    .error "From value must be less than or equal to To value!"
  else
    (pyRangeIncl start stop).foldlM
      (fun acc n => do
        let hup ← unpack3 (generate_credentials n)
        pure (acc ++ [hup]))
      []

/-! ### theorems on credential derivation -/

/-- C2: derive(5) gives one descriptor with hostname css01sth005ts01,
username uss01sth005ts01, password sth@TS005; derive(23) gives two
descriptors with hostnames css01sth023ts01 and css01sth23ts01, both with
username uss01sth023ts01 and password sth@TS023; derive(250) gives one
descriptor with hostname css01sth250ts01, username uss01sth250ts01,
password sth@TS250. -/
theorem generate_credentials_examples :
    generate_credentials 5 =
      [("css01sth005ts01", "uss01sth005ts01", "sth@TS005")] ∧
    generate_credentials 23 =
      [("css01sth023ts01", "uss01sth023ts01", "sth@TS023"),
       ("css01sth23ts01", "uss01sth023ts01", "sth@TS023")] ∧
    generate_credentials 250 =
      [("css01sth250ts01", "uss01sth250ts01", "sth@TS250")] := by
  refine ⟨?_, ?_, ?_⟩ <;> decide

/-- Every result of generate_credentials has one or two entries, never
three. -/
theorem generate_credentials_length (n : Int) :
    (generate_credentials n).length = 1 ∨ (generate_credentials n).length = 2 := by
  unfold generate_credentials
  split
  · left; rfl
  · split
    · right; rfl
    · left; rfl

/-- C1: the batch-building loop crashes instead of collecting descriptors.
generate_credentials 23 yields two descriptors, yet building the batch for
the range 23..23 raises a ValueError at the three-target unpacking, because
the returned list never has exactly three elements; so no batch containing
the derived descriptors is ever built. -/
theorem buildHostInfosRange_crashes :
    (generate_credentials 23).length = 2 ∧
    buildHostInfosRange 23 23 =
      .error "ValueError: unpacking requires exactly 3 values" ∧
    ∀ start stop : Int, start ≤ stop →
      ∃ e, buildHostInfosRange start stop = .error e := by
  refine ⟨by decide, by rfl, ?_⟩
  intro start stop h
  have hrange : ∃ n₀ rest, pyRangeIncl start stop = n₀ :: rest := by
    unfold pyRangeIncl
    have h1 : (stop + 1 - start).toNat = (stop + 1 - (start + 1)).toNat + 1 := by
      omega
    rw [h1, List.range_succ_eq_map, List.map_cons]
    exact ⟨_, _, rfl⟩
  have key : ∀ (l : List Cred), l.length = 1 ∨ l.length = 2 →
      ∃ e', unpack3 l = Except.error e' := by
    intro l hl
    match l with
    | [] => exact ⟨_, rfl⟩
    | [a] => exact ⟨_, rfl⟩
    | [a, b] => exact ⟨_, rfl⟩
    | [a, b, c] => simp at hl
    | a :: b :: c :: d :: t => exact ⟨_, rfl⟩
  rcases hrange with ⟨n₀, rest, hrange⟩
  rcases key (generate_credentials n₀) (generate_credentials_length n₀)
    with ⟨e', he'⟩
  refine ⟨e', ?_⟩
  unfold buildHostInfosRange
  rw [if_neg (by omega), hrange, List.foldlM_cons]
  show (do
    let hup ← unpack3 (generate_credentials n₀)
    pure ([] ++ [hup]) : Except String (List (Cred × Cred × Cred))) >>= _ = _
  rw [he']
  rfl

/-- C9: derive fails with a FormatError exactly when the input is not
coercible to an integer, and for every integer-coercible input it returns
normally with a nonempty descriptor list. -/
theorem generate_credentials_str_spec (s : String) :
    (∀ n, pyInt s = some n →
      generate_credentials_str s = .ok (generate_credentials n) ∧
      generate_credentials n ≠ []) ∧
    (pyInt s = none →
      generate_credentials_str s =
        .error "Input must be an integer or string representing an integer.") := by
  constructor
  · intro n hn
    constructor
    · unfold generate_credentials_str
      rw [hn]
    · unfold generate_credentials
      split
      · simp
      · split <;> simp
  · intro hn
    unfold generate_credentials_str
    rw [hn]

/-- Witness for C9: the string 23 is coercible and yields a nonempty list,
the string abc is not coercible and yields the ValueError. -/
theorem generate_credentials_str_spec_witness :
    (generate_credentials_str "23" = .ok (generate_credentials 23) ∧
      generate_credentials 23 ≠ []) ∧
    generate_credentials_str "abc" =
      .error "Input must be an integer or string representing an integer." :=
  ⟨(generate_credentials_str_spec "23").1 23 (by decide),
   (generate_credentials_str_spec "abc").2 (by decide)⟩

/-! ### per-host action pipeline: ExecutionWorker.run.worker (main.py) -/

/-- Host record handed to the workers. -/
structure HostInfo where
  hostname : String
  username : String
  password : String
deriving DecidableEq, Repr

/-- The per-host result row of the execution worker. -/
structure Row where
  hostname : String
  pingable : Bool
  cmd_result : String
deriving DecidableEq, Repr

/-- Observable side effects of a per-host task, recorded as a trace. -/
inductive Act where
  | ping
  | builtin
  | sshCreate
  | sshConnect
  | sshExec (cmd : String)
  | sshClose
deriving DecidableEq, Repr

/-- Behaviour of the network collaborators for one host: each field is the
value returned by the corresponding call, or the message of the exception it
raises. -/
structure ExecOracle where
  ping : Except String Bool
  builtinRun : Except String String
  connect : Except String Unit
  execCmd : String → Except String (String × String)

/-- Split of the raw custom command string: split on the conjunction
delimiter, strip each part, keep the nonempty ones (main.py line 89). -/
def parseCommands (raw : String) : List String :=
  ((pySplitAmpAmp raw).map pyStrip).filter (fun c => c ≠ "")

/-- Output line for one command: stripped stderr if nonempty, else stripped
stdout (main.py lines 94 to 99). -/
def cmdLine (out err : String) : String :=
  if pyStrip err ≠ "" then "ERR: " ++ pyStrip err else pyStrip out

/-- The command loop of the custom step: run each command, collect lines;
an exception from any call escapes (to the surrounding catch). The second
component is the trace of attempted commands. -/
def runCmds (ex : String → Except String (String × String)) :
    List String → Except String (List String) × List Act
  | [] => (.ok [], [])
  | c :: rest =>
    match ex c with
    | .error e => (.error e, [.sshExec c])
    | .ok (out, err) =>
      let next := runCmds ex rest
      (next.1.map (fun ls => cmdLine out err :: ls), .sshExec c :: next.2)

/-- The COMMANDS step (main.py lines 83 to 110): create a client, connect,
run the parsed commands in the one session, join lines with a newline; any
exception gives SSH ERR with the message; close in the finally block. -/
def commandsStep (o : ExecOracle) (raw : String) : String × List Act :=
  match o.connect with
  | .error e => ("SSH ERR: " ++ e, [.sshCreate, .sshConnect, .sshClose])
  | .ok _ =>
    let next := runCmds o.execCmd (parseCommands raw)
    match next.1 with
    | .ok lines =>
      (String.intercalate "\n" lines,
       [Act.sshCreate, Act.sshConnect] ++ next.2 ++ [Act.sshClose])
    | .error e =>
      ("SSH ERR: " ++ e,
       [Act.sshCreate, Act.sshConnect] ++ next.2 ++ [Act.sshClose])

/-- The built-in (deploy) step (main.py lines 65 to 77): look up the
command, run it, convert an escaping exception to Execute failed. -/
def builtinStep (o : ExecOracle) (builtin_cmd : String) : String × List Act :=
  if builtin_cmd = "ssh_copy" then
    match o.builtinRun with
    | .ok s => (s, [.builtin])
    | .error e => ("Execute failed: " ++ e, [.builtin])
  else
    ("Unknown built-in command: " ++ builtin_cmd, [])

/-- The per-host task of ExecutionWorker.run (main.py lines 42 to 121):
ping gate, optional built-in step, optional custom step, outcome
combination. Returns the result row and the side-effect trace. -/
def worker (o : ExecOracle) (info : HostInfo) (do_builtin do_custom : Bool)
    (builtin_cmd custom_cmd : String) : Row × List Act :=
  let pingable :=
    match o.ping with
    | .ok b => b
    | .error _ => false
  if pingable = false then
    ({ hostname := info.hostname, pingable := false, cmd_result := "Unreachable" },
     [.ping])
  else
    let bres := if do_builtin then builtinStep o builtin_cmd else ("", [])
    let cres := if do_custom then commandsStep o custom_cmd else ("", [])
    let outcome :=
      if do_builtin && do_custom then bres.1 ++ "\n---\n" ++ cres.1
      else if do_builtin then bres.1
      else if do_custom then cres.1
      else ""
    ({ hostname := info.hostname, pingable := true, cmd_result := outcome },
     .ping :: (bres.2 ++ cres.2))

/-! ### ping_utils.py and scan_utils.py -/

/-- ping_host: run the ping subprocess, reachable when the return code is
zero; any exception gives false (ping_utils.py). -/
def ping_host (run : Except String Int) : Bool :=
  match run with
  | .ok rc => rc == 0
  | .error _ => false

/-- Behaviour of the collaborators used by scan_host. -/
structure ScanOracle where
  ping : Except String Bool
  connect : Except String Unit
  execEcho : Except String (String × String)

/-- The per-host scan record (scan_utils.py). -/
structure ScanRec where
  hostname : String
  username : String
  password : String
  pingable : Bool
  scan_result : String
deriving DecidableEq, Repr

/-- scan_host (scan_utils.py lines 12 to 71): ping, then connect and run the
echo command; every exception is converted to a result string; the client,
once created, is closed in the finally block. -/
def scan_host (o : ScanOracle) (hostname username password : String) :
    ScanRec × List Act :=
  match o.ping with
  | .error e =>
    ({ hostname := hostname, username := username, password := password,
       pingable := false, scan_result := "Ping error: " ++ e }, [.ping])
  | .ok pingable =>
    if pingable = false then
      ({ hostname := hostname, username := username, password := password,
         pingable := false, scan_result := "Unreachable" }, [.ping])
    else
      match o.connect with
      | .error e =>
        ({ hostname := hostname, username := username, password := password,
           pingable := true, scan_result := "SSH Error: " ++ e },
         [.ping, .sshCreate, .sshConnect, .sshClose])
      | .ok _ =>
        match o.execEcho with
        | .error e =>
          ({ hostname := hostname, username := username, password := password,
             pingable := true, scan_result := "SSH Error: " ++ e },
           [.ping, .sshCreate, .sshConnect,
            .sshExec ("echo hello " ++ hostname), .sshClose])
        | .ok (out, err) =>
          ({ hostname := hostname, username := username, password := password,
             pingable := true,
             scan_result :=
               if pyStrip err ≠ "" then "Error: " ++ pyStrip err else pyStrip out },
           [.ping, .sshCreate, .sshConnect,
            .sshExec ("echo hello " ++ hostname), .sshClose])

/-! ### theorems on the pipeline -/

/-- C4: any error raised inside a step of the per-host task is converted
into that host's outcome string and never escapes: a ping error gives the
Unreachable outcome, a built-in step error gives Execute failed with the
message, a connect error in the custom step gives SSH ERR with the message.
The task itself is a total function, so no error propagates to siblings or
the run. -/
theorem worker_failure_isolation (o : ExecOracle) (info : HostInfo)
    (db dc : Bool) (bc cc : String) (e : String) :
    (o.ping = .error e →
      (worker o info db dc bc cc).1.pingable = false ∧
      (worker o info db dc bc cc).1.cmd_result = "Unreachable") ∧
    (o.ping = .ok true → o.builtinRun = .error e →
      (worker o info true false "ssh_copy" cc).1.cmd_result =
        "Execute failed: " ++ e) ∧
    (o.ping = .ok true → o.connect = .error e →
      (worker o info false true bc cc).1.cmd_result = "SSH ERR: " ++ e) := by
  refine ⟨?_, ?_, ?_⟩
  · intro hp
    simp [worker, hp]
  · intro hp hb
    simp [worker, hp, builtinStep, hb]
  · intro hp hc
    simp [worker, hp, commandsStep, hc]

/-- Witness for C4: the three conversions at concrete oracle behaviours. -/
theorem worker_failure_isolation_witness :
    (worker ⟨Except.error "boom", Except.ok "", Except.ok (), fun _ => Except.ok ("", "")⟩
       ⟨"h", "u", "p"⟩ false false "" "").1.cmd_result = "Unreachable" ∧
    (worker ⟨Except.ok true, Except.error "boom", Except.ok (), fun _ => Except.ok ("", "")⟩
       ⟨"h", "u", "p"⟩ true false "ssh_copy" "").1.cmd_result = "Execute failed: boom" ∧
    (worker ⟨Except.ok true, Except.ok "", Except.error "down", fun _ => Except.ok ("", "")⟩
       ⟨"h", "u", "p"⟩ false true "" "").1.cmd_result = "SSH ERR: down" :=
  ⟨((worker_failure_isolation _ ⟨"h", "u", "p"⟩ false false "" "" "boom").1 rfl).2,
   (worker_failure_isolation _ ⟨"h", "u", "p"⟩ true false "ssh_copy" "" "boom").2.1 rfl rfl,
   (worker_failure_isolation _ ⟨"h", "u", "p"⟩ false true "" "" "down").2.2 rfl rfl⟩

/-- C5: whenever a result record has pingable false, its outcome is the
literal Unreachable and the task performed no deploy, no connect and no
remote command: the trace is just the ping. Stated for the execution worker
with any oracle, and for scan_host composed with the real ping_host, which
never raises. -/
theorem unreachable_invariant :
    (∀ (o : ExecOracle) (info : HostInfo) (db dc : Bool) (bc cc : String),
      (worker o info db dc bc cc).1.pingable = false →
        (worker o info db dc bc cc).1.cmd_result = "Unreachable" ∧
        (worker o info db dc bc cc).2 = [Act.ping]) ∧
    (∀ (run : Except String Int) (conn : Except String Unit)
        (ex : Except String (String × String)) (h u p : String),
      (scan_host ⟨Except.ok (ping_host run), conn, ex⟩ h u p).1.pingable = false →
        (scan_host ⟨Except.ok (ping_host run), conn, ex⟩ h u p).1.scan_result =
          "Unreachable" ∧
        (scan_host ⟨Except.ok (ping_host run), conn, ex⟩ h u p).2 = [Act.ping]) := by
  constructor
  · intro o info db dc bc cc hfalse
    cases hp : o.ping with
    | error e => simp [worker, hp]
    | ok b =>
      cases b with
      | false => simp [worker, hp]
      | true => simp [worker, hp] at hfalse
  · intro run conn ex h u p hfalse
    cases hb : ping_host run with
    | false => simp [scan_host, hb]
    | true =>
      cases hc : conn with
      | error e => simp [scan_host, hb, hc] at hfalse
      | ok uu =>
        cases he : ex with
        | error e => simp [scan_host, hb, hc, he] at hfalse
        | ok pr => simp [scan_host, hb, hc, he] at hfalse

/-- Witness for C5: an unreachable host in both pipelines. -/
theorem unreachable_invariant_witness :
    (worker ⟨Except.ok false, Except.ok "", Except.ok (), fun _ => Except.ok ("", "")⟩
       ⟨"h", "u", "p"⟩ true true "ssh_copy" "ls").1.cmd_result = "Unreachable" ∧
    (scan_host ⟨Except.ok (ping_host (Except.error "no route")),
        Except.ok (), Except.ok ("", "")⟩ "h" "u" "p").1.scan_result = "Unreachable" :=
  ⟨(unreachable_invariant.1
      ⟨Except.ok false, Except.ok "", Except.ok (), fun _ => Except.ok ("", "")⟩
      ⟨"h", "u", "p"⟩ true true "ssh_copy" "ls" rfl).1,
   (unreachable_invariant.2 (Except.error "no route")
      (Except.ok ()) (Except.ok ("", "")) "h" "u" "p" rfl).1⟩

/-- When every command of the list succeeds, the command loop returns the
per-command lines and attempts exactly those commands. -/
theorem runCmds_ok (ex : String → Except String (String × String))
    (f : String → String × String) (l : List String)
    (h : ∀ c ∈ l, ex c = .ok (f c)) :
    runCmds ex l =
      (.ok (l.map (fun c => cmdLine (f c).1 (f c).2)), l.map Act.sshExec) := by
  induction l with
  | nil => rfl
  | cons c rest ih =>
    have hc : ex c = .ok (f c) := h c (by simp)
    have ih' := ih (fun x hx => h x (by simp [hx]))
    rcases hfc : f c with ⟨out, err⟩
    rw [hfc] at hc
    simp [runCmds, hc, ih', hfc, Except.map]

/-- C6: the COMMANDS step splits the raw string on the conjunction
delimiter discarding whitespace-only segments; when the connection succeeds
and every command runs, the commands attempted in the one session are
exactly the parsed ones and the outcome joins, with newlines, per-command
lines that are ERR with the stripped stderr when that is nonempty and the
stripped stdout otherwise; a connect exception makes the whole step outcome
SSH ERR with the message. -/
theorem commandsStep_spec (o : ExecOracle) (raw : String)
    (f : String → String × String) :
    (∀ c ∈ parseCommands raw, c ≠ "") ∧
    (∀ m, o.connect = .error m → (commandsStep o raw).1 = "SSH ERR: " ++ m) ∧
    (o.connect = .ok () →
      (∀ c ∈ parseCommands raw, o.execCmd c = .ok (f c)) →
      (commandsStep o raw).1 =
        String.intercalate "\n"
          ((parseCommands raw).map (fun c => cmdLine (f c).1 (f c).2)) ∧
      (commandsStep o raw).2 =
        [Act.sshCreate, Act.sshConnect] ++
          (parseCommands raw).map Act.sshExec ++ [Act.sshClose]) := by
  refine ⟨?_, ?_, ?_⟩
  · intro c hcmem
    unfold parseCommands at hcmem
    exact of_decide_eq_true (List.mem_filter.mp hcmem).2
  · intro m hm
    simp [commandsStep, hm]
  · intro hconn hall
    rw [commandsStep, hconn]
    rw [runCmds_ok o.execCmd f (parseCommands raw) hall]
    exact ⟨rfl, rfl⟩

/-- Witness for C6: a concrete command string with a whitespace-only
segment, all commands succeeding. -/
theorem commandsStep_spec_witness :
    (commandsStep
        ⟨Except.ok true, Except.ok "", Except.ok (),
         fun c => Except.ok ("out " ++ c, "")⟩
        "echo a && && ls -l").1 = "out echo a\nout ls -l" ∧
    (commandsStep
        ⟨Except.ok true, Except.ok "", Except.ok (),
         fun c => Except.ok ("out " ++ c, "")⟩
        "echo a && && ls -l").2 =
      [Act.sshCreate, Act.sshConnect, Act.sshExec "echo a",
       Act.sshExec "ls -l", Act.sshClose] := by
  have h := (commandsStep_spec
      ⟨Except.ok true, Except.ok "", Except.ok (),
       fun c => Except.ok ("out " ++ c, "")⟩
      "echo a && && ls -l"
      (fun c => ("out " ++ c, ""))).2.2 rfl (fun c _ => rfl)
  refine ⟨?_, ?_⟩
  · rw [h.1]
    decide
  · rw [h.2]
    decide

/-- C10: scan_host is total over every collaborator behaviour, echoes its
hostname, username and password arguments unchanged into the record, and
whenever the SSH client is created the trace also closes it. -/
theorem scan_host_total (o : ScanOracle) (h u p : String) :
    (scan_host o h u p).1.hostname = h ∧
    (scan_host o h u p).1.username = u ∧
    (scan_host o h u p).1.password = p ∧
    (Act.sshCreate ∈ (scan_host o h u p).2 →
      Act.sshClose ∈ (scan_host o h u p).2) := by
  cases hp : o.ping with
  | error e => simp [scan_host, hp]
  | ok b =>
    cases b with
    | false => simp [scan_host, hp]
    | true =>
      cases hc : o.connect with
      | error e => simp [scan_host, hp, hc]
      | ok uu =>
        cases he : o.execEcho with
        | error e => simp [scan_host, hp, hc, he]
        | ok pr =>
          rcases pr with ⟨out, err⟩
          simp [scan_host, hp, hc, he]

/-- Witness for C10: a successful scan creates and closes the client and
echoes the arguments. -/
theorem scan_host_total_witness :
    (scan_host ⟨Except.ok true, Except.ok (), Except.ok ("hello hx", "")⟩
        "hx" "ux" "px").1.hostname = "hx" ∧
    Act.sshClose ∈
      (scan_host ⟨Except.ok true, Except.ok (), Except.ok ("hello hx", "")⟩
        "hx" "ux" "px").2 := by
  have h := scan_host_total
    ⟨Except.ok true, Except.ok (), Except.ok ("hello hx", "")⟩ "hx" "ux" "px"
  exact ⟨h.1, h.2.2.2 (by decide)⟩

/-! ### fan-out / fan-in of ExecutionWorker.run and ScanWorker.run -/

/-- The fan-in loop (main.py lines 125 to 132 and 162 to 169): a result
array pre-sized with none, one task per index, and for each completed
future, in completion order, the write of its result at its original
index. The order list is the completion order of the futures. -/
def executorRun {α : Type} (n : Nat) (task : Nat → α) (order : List Nat) :
    List (Option α) :=
  order.foldl (fun acc idx => acc.set idx (some (task idx))) (List.replicate n none)

/-- Effect of the fan-in fold on one slot: a slot whose index was completed
holds that task's result, any other slot is untouched. -/
theorem executorFold_getElem {α : Type} (task : Nat → α) (order : List Nat)
    (acc : List (Option α)) (i : Nat) :
    (order.foldl (fun acc idx => acc.set idx (some (task idx))) acc)[i]? =
      if i ∈ order ∧ i < acc.length then some (some (task i)) else acc[i]? := by
  induction order generalizing acc with
  | nil => simp
  | cons j rest ih =>
    rw [List.foldl_cons, ih]
    simp only [List.length_set, List.mem_cons]
    by_cases hmem : i ∈ rest
    · by_cases hlen : i < acc.length
      · rw [if_pos ⟨hmem, hlen⟩, if_pos ⟨Or.inr hmem, hlen⟩]
      · rw [if_neg (fun h => hlen h.2), if_neg (fun h => hlen h.2)]
        rw [List.getElem?_eq_none (by simp; omega),
          List.getElem?_eq_none (by omega)]
    · by_cases hj : i = j
      · subst hj
        by_cases hlen : i < acc.length
        · rw [if_neg (fun h => hmem h.1), if_pos ⟨Or.inl rfl, hlen⟩,
            List.getElem?_set_self hlen]
        · rw [if_neg (fun h => hlen h.2), if_neg (fun h => hlen h.2)]
          rw [List.getElem?_eq_none (by simp; omega),
            List.getElem?_eq_none (by omega)]
      · rw [if_neg (fun h => hmem h.1),
          if_neg (fun h => h.1.elim (fun e => hj e) hmem)]
        exact List.getElem?_set_ne (fun h => hj h.symm)

/-- C3: for every completion order that is a permutation of the task
indices, the final result list of the fan-in has exactly one entry per
descriptor, and slot i holds the result of the task for descriptor i; no
slot is left unfilled and no result is lost. -/
theorem executorRun_complete {α : Type} (n : Nat) (task : Nat → α)
    (order : List Nat) (hperm : order.Perm (List.range n)) :
    (executorRun n task order).length = n ∧
    executorRun n task order = (List.range n).map (fun i => some (task i)) := by
  have main : executorRun n task order =
      (List.range n).map (fun i => some (task i)) := by
    apply List.ext_getElem?
    intro i
    rw [executorRun, executorFold_getElem]
    have hmem : i ∈ order ↔ i < n := by
      rw [hperm.mem_iff, List.mem_range]
    by_cases hi : i < n
    · rw [if_pos ⟨hmem.mpr hi, by simpa using hi⟩]
      rw [List.getElem?_map, List.getElem?_range hi]
      rfl
    · rw [if_neg (by simp [hmem, hi])]
      rw [List.getElem?_replicate]
      rw [if_neg (by omega)]
      rw [List.getElem?_map, List.getElem?_eq_none (by simpa using Nat.le_of_not_lt hi)]
      rfl
  exact ⟨by rw [main]; simp, main⟩

/-- Witness for C3: three tasks completing in the order 2, 0, 1 still fill
every slot with its own result. -/
theorem executorRun_complete_witness :
    (executorRun 3 (fun i => i * 10) [2, 0, 1]).length = 3 ∧
    executorRun 3 (fun i => i * 10) [2, 0, 1] = [some 0, some 10, some 20] := by
  have h := executorRun_complete 3 (fun i => i * 10) [2, 0, 1] (by decide)
  exact ⟨h.1, by rw [h.2]; decide⟩

/-! ### export_scan_to_csv (scan_utils.py) -/

/-- Bool test that the first character list starts with the second
(Python str.startswith). -/
def startsChars : List Char → List Char → Bool
  | _, [] => true
  | [], _ :: _ => false
  | c :: cs, p :: ps => c == p && startsChars cs ps

/-- Python str.startswith on strings. -/
def pyStartsWith (s pre : String) : Bool :=
  startsChars s.toList pre.toList

/-- The ssh_able column condition (scan_utils.py lines 101 to 106):
pingable, nonempty result, not an SSH or command error, not the
Unreachable sentinel. -/
def sshAbleB (r : ScanRec) : Bool :=
  r.pingable && !(r.scan_result == "") &&
    !(pyStartsWith r.scan_result "SSH Error:") &&
    !(pyStartsWith r.scan_result "Error:") &&
    !(r.scan_result == "Unreachable")

/-- The rows written by export_scan_to_csv: the fixed header, then one row
per result with Yes/No for pingable and ssh_able. -/
def exportScanRows (rs : List ScanRec) : List (List String) :=
  ["host", "username", "password", "pingable", "ssh_able"] ::
    rs.map (fun r =>
      [r.hostname, r.username, r.password,
       if r.pingable then "Yes" else "No",
       if sshAbleB r then "Yes" else "No"])

/-- The ssh_able Bool unfolded into its five conjuncts. -/
theorem sshAbleB_eq_true_iff (r : ScanRec) :
    sshAbleB r = true ↔
      (r.pingable = true ∧ r.scan_result ≠ "" ∧
       pyStartsWith r.scan_result "SSH Error:" = false ∧
       pyStartsWith r.scan_result "Error:" = false ∧
       r.scan_result ≠ "Unreachable") := by
  simp only [sshAbleB, Bool.and_eq_true, Bool.not_eq_true', beq_eq_false_iff_ne,
    ne_eq, and_assoc]

/-- C7: the export has one header row plus one data row per result; the
pingable column is Yes exactly when the flag is true; the ssh_able column
is Yes exactly when pingable holds, the outcome is nonempty, does not start
with SSH Error: or Error:, and is not the literal Unreachable; in
particular every Unreachable row gets ssh_able No. -/
theorem exportScanRows_spec (rs : List ScanRec) :
    (exportScanRows rs).length = rs.length + 1 ∧
    List.Forall₂
      (fun (row : List String) (r : ScanRec) =>
        row.length = 5 ∧
        (row[3]? = some "Yes" ↔ r.pingable = true) ∧
        (row[4]? = some "Yes" ↔
          (r.pingable = true ∧ r.scan_result ≠ "" ∧
           pyStartsWith r.scan_result "SSH Error:" = false ∧
           pyStartsWith r.scan_result "Error:" = false ∧
           r.scan_result ≠ "Unreachable")) ∧
        (r.scan_result = "Unreachable" → row[4]? = some "No"))
      (exportScanRows rs).tail rs := by
  constructor
  · simp [exportScanRows]
  · show List.Forall₂ _ (rs.map _) rs
    induction rs with
    | nil => exact List.Forall₂.nil
    | cons r rest ih =>
      rw [List.map_cons]
      refine List.Forall₂.cons ⟨rfl, ?_, ?_, ?_⟩ ih
      · cases hp : r.pingable
        · show some "No" = some "Yes" ↔ false = true
          constructor
          · intro h
            exact absurd (Option.some.inj h) (by decide)
          · intro h
            exact absurd h (by decide)
        · show some "Yes" = some "Yes" ↔ true = true
          exact ⟨fun _ => rfl, fun _ => rfl⟩
      · rw [← sshAbleB_eq_true_iff]
        cases hb : sshAbleB r
        · show some "No" = some "Yes" ↔ false = true
          constructor
          · intro h
            exact absurd (Option.some.inj h) (by decide)
          · intro h
            exact absurd h (by decide)
        · show some "Yes" = some "Yes" ↔ true = true
          exact ⟨fun _ => rfl, fun _ => rfl⟩
      · intro hu
        have hb : sshAbleB r = false := by
          rw [Bool.eq_false_iff]
          intro hb
          exact ((sshAbleB_eq_true_iff r).mp hb).2.2.2.2 hu
        show some (if sshAbleB r = true then "Yes" else "No") = some "No"
        rw [hb]
        rfl

/-- Witness for C7 at a concrete unreachable result. -/
theorem exportScanRows_spec_witness :
    (exportScanRows [⟨"h1", "u1", "p1", false, "Unreachable"⟩]).length = 2 :=
  (exportScanRows_spec [⟨"h1", "u1", "p1", false, "Unreachable"⟩]).1

/-! ### presentation sort (main.py lines 358 to 359 and 463 to 464)

pandas sort_values on the two columns pingable (descending) and hostname
(ascending) performs a lexicographic sort via numpy lexsort, which is
stable; it is modelled with the stable mergeSort under the corresponding
lexicographic key. -/

/-- Sort rank of the pingable flag under ascending-false ordering of the
descending bool sort: reachable rows rank before unreachable ones. -/
def rankOf (b : Bool) : Nat :=
  if b then 0 else 1

/-- The lexicographic comparison of the display sort: pingable descending,
then hostname ascending. -/
def displayLE {α : Type} (ping : α → Bool) (host : α → String) (a b : α) : Bool :=
  decide (rankOf (ping a) < rankOf (ping b)) ||
    (decide (rankOf (ping a) = rankOf (ping b)) && decide (host a ≤ host b))

/-- The presentation-ordered view: a stable sort of the result list under
the display comparison. -/
def sortDisplay {α : Type} (ping : α → Bool) (host : α → String)
    (rs : List α) : List α :=
  rs.mergeSort (displayLE ping host)

/-- The display comparison is transitive. -/
theorem displayLE_trans {α : Type} (ping : α → Bool) (host : α → String) :
    ∀ (a b c : α), displayLE ping host a b = true →
      displayLE ping host b c = true → displayLE ping host a c = true := by
  intro a b c hab hbc
  simp only [displayLE, Bool.or_eq_true, Bool.and_eq_true, decide_eq_true_eq]
    at hab hbc ⊢
  rcases hab with h1 | ⟨h1, h2⟩
  · rcases hbc with g1 | ⟨g1, g2⟩
    · exact Or.inl (Nat.lt_trans h1 g1)
    · exact Or.inl (g1 ▸ h1)
  · rcases hbc with g1 | ⟨g1, g2⟩
    · exact Or.inl (by rw [h1]; exact g1)
    · exact Or.inr ⟨h1.trans g1, le_trans h2 g2⟩

/-- The display comparison is total. -/
theorem displayLE_total {α : Type} (ping : α → Bool) (host : α → String) :
    ∀ (a b : α),
      (displayLE ping host a b || displayLE ping host b a) = true := by
  intro a b
  simp only [displayLE, Bool.or_eq_true, Bool.and_eq_true, decide_eq_true_eq]
  rcases Nat.lt_trichotomy (rankOf (ping a)) (rankOf (ping b)) with h | h | h
  · exact Or.inl (Or.inl h)
  · rcases le_total (host a) (host b) with hh | hh
    · exact Or.inl (Or.inr ⟨h, hh⟩)
    · exact Or.inr (Or.inr ⟨h.symm, hh⟩)
  · exact Or.inr (Or.inl h)

/-- C8: the presentation view is a pure, stable sort of the result list:
it is a permutation of the results; in the displayed order every
reachable entry precedes every unreachable one and, within entries of
equal reachability, hostnames are ascending; and entries equal on both
keys keep their original relative order (the sublist of any fixed key is
unchanged). -/
theorem sortDisplay_spec {α : Type} (ping : α → Bool) (host : α → String)
    (rs : List α) :
    (sortDisplay ping host rs).Perm rs ∧
    List.Pairwise (fun a b =>
        (ping a = false → ping b = false) ∧
        (ping a = ping b → host a ≤ host b)) (sortDisplay ping host rs) ∧
    ∀ (p : Bool) (hn : String),
      (sortDisplay ping host rs).filter (fun r => ping r == p && (host r == hn)) =
        rs.filter (fun r => ping r == p && (host r == hn)) := by
  refine ⟨?_, ?_, ?_⟩
  · unfold sortDisplay
    exact List.mergeSort_perm rs _
  · have hs := List.sorted_mergeSort (displayLE_trans ping host)
      (displayLE_total ping host) rs
    unfold sortDisplay
    refine hs.imp ?_
    intro a b hab
    simp only [displayLE, Bool.or_eq_true, Bool.and_eq_true, decide_eq_true_eq]
      at hab
    constructor
    · intro hpa
      rcases hab with h1 | ⟨h1, _⟩
      · rw [hpa] at h1
        cases hpb : ping b
        · rfl
        · rw [hpb] at h1
          simp [rankOf] at h1
      · rw [hpa] at h1
        cases hpb : ping b
        · rfl
        · rw [hpb] at h1
          simp [rankOf] at h1
    · intro heq
      rcases hab with h1 | ⟨_, h2⟩
      · rw [heq] at h1
        exact absurd h1 (lt_irrefl _)
      · exact h2
  · intro p hn
    have hpair : (rs.filter (fun r => ping r == p && (host r == hn))).Pairwise
        (fun a b => displayLE ping host a b = true) := by
      apply List.pairwise_of_forall_mem_list
      intro a ha b hb
      have hpa := (List.mem_filter.mp ha).2
      have hpb := (List.mem_filter.mp hb).2
      simp only [Bool.and_eq_true, beq_iff_eq] at hpa hpb
      simp only [displayLE, Bool.or_eq_true, Bool.and_eq_true, decide_eq_true_eq]
      refine Or.inr ⟨by rw [hpa.1, hpb.1], ?_⟩
      rw [hpa.2, hpb.2]
    have hsub : List.Sublist (rs.filter (fun r => ping r == p && (host r == hn)))
        (sortDisplay ping host rs) := by
      unfold sortDisplay
      exact List.sublist_mergeSort (displayLE_trans ping host)
        (displayLE_total ping host) hpair (List.filter_sublist rs)
    have hperm2 : List.Perm
        ((sortDisplay ping host rs).filter
          (fun r => ping r == p && (host r == hn)))
        (rs.filter (fun r => ping r == p && (host r == hn))) := by
      unfold sortDisplay
      exact (List.mergeSort_perm rs _).filter _
    have hsub2 : List.Sublist (rs.filter (fun r => ping r == p && (host r == hn)))
        ((sortDisplay ping host rs).filter
          (fun r => ping r == p && (host r == hn))) := by
      have h1 : (rs.filter (fun r => ping r == p && (host r == hn))).filter
            (fun r => ping r == p && (host r == hn)) =
          rs.filter (fun r => ping r == p && (host r == hn)) :=
        List.filter_eq_self.mpr (fun a ha => (List.mem_filter.mp ha).2)
      have h2 := List.Sublist.filter (fun r => ping r == p && (host r == hn)) hsub
      rw [h1] at h2
      exact h2
    exact (hsub2.eq_of_length hperm2.length_eq.symm).symm

/-- Witness for C8 at a concrete two-row result list. -/
theorem sortDisplay_spec_witness :
    (sortDisplay Row.pingable Row.hostname
        [⟨"b", true, ""⟩, ⟨"a", false, ""⟩]).Perm
      [⟨"b", true, ""⟩, ⟨"a", false, ""⟩] :=
  (sortDisplay_spec Row.pingable Row.hostname
    [⟨"b", true, ""⟩, ⟨"a", false, ""⟩]).1

end SSD
